import Mathlib

/-!
Verification of the diesel-oci low-level OCI driver core
(`src/oracle/connection/{raw,stmt,cursor}.rs`) against its
natural-language specification.

Shallow embedding conventions:
* Rust strings are `List Char`; where the source works with UTF-8 byte
  offsets (`str::find`) the offsets are computed with `Char.utf8Size`, so
  they agree with the Rust byte indices.
* Machine integers are `Nat`/`Int`; the 32-bit counters of the source
  (`bind_index : c_uint`, `current_row : u32`) are reduced `% 2 ^ 32` at
  each increment, matching wrapping-on-overflow release semantics.
* Native OCI calls are modelled by their documented observable behaviour:
  status codes and the values they write are inputs of the embedded
  functions; panics of the Rust code are explicit result constructors.
-/

namespace DieselOci

/-! ## Native constants (values of the `oci_sys` bindings) -/

def OCI_SUCCESS : Int := 0
def OCI_SUCCESS_WITH_INFO : Int := 1
def OCI_ERROR : Int := -1
def OCI_INVALID_HANDLE : Int := -2
def OCI_NO_DATA : Nat := 100

def SQLT_CHR : Nat := 1
def SQLT_NUM : Nat := 2
def SQLT_INT : Nat := 3
def SQLT_FLT : Nat := 4
def SQLT_STR : Nat := 5
def SQLT_LNG : Nat := 8
def SQLT_VCS : Nat := 9
def SQLT_BFLOAT : Nat := 21
def SQLT_BDOUBLE : Nat := 22
def SQLT_UIN : Nat := 68
def SQLT_LVC : Nat := 94
def SQLT_AFC : Nat := 96
def SQLT_IBFLOAT : Nat := 100
def SQLT_IBDOUBLE : Nat := 101
def SQLT_VST : Nat := 155
def SQLT_ODT : Nat := 156
def SQLT_DATE : Nat := 184
def SQLT_TIMESTAMP : Nat := 187
def SQLT_TIMESTAMP_TZ : Nat := 188
def SQLT_TIMESTAMP_LTZ : Nat := 232

/-! ## String helpers shared by the embedded functions -/

/-- UTF-8 byte length of a character list (Rust strings index by bytes). -/
def utf8Len (l : List Char) : Nat := (l.map Char.utf8Size).sum

/-- Embeds Rust `str::find(pat)`: byte offset of the first occurrence of
`pat` in `hay`, `none` if there is none. -/
def rustFind (pat : List Char) : List Char → Option Nat
  | [] => if pat.isPrefixOf ([] : List Char) then some 0 else none
  | c :: rest =>
    if pat.isPrefixOf (c :: rest) then some 0
    else (rustFind pat rest).map (· + c.utf8Size)

/-- Embeds Rust `str::contains(pat)` (used by the `is_select` heuristic). -/
def containsSub (pat hay : List Char) : Bool := (rustFind pat hay).isSome

/-- Fuel-driven worker for `splitSub`; fuel `hay.length` is always enough
because every step consumes at least one character of the haystack. -/
def splitSubAux (pat : List Char) : Nat → List Char → List Char → List (List Char)
  | _, [], acc => [acc.reverse]
  | 0, _ :: _, acc => [acc.reverse]
  | fuel + 1, c :: rest, acc =>
    if pat.isPrefixOf (c :: rest) then
      acc.reverse :: splitSubAux pat fuel (List.drop pat.length (c :: rest)) []
    else splitSubAux pat fuel rest (c :: acc)

/-- Embeds Rust `str::split(pat)` for a non-empty pattern (the source only
splits on `"//"`). -/
def splitSub (pat hay : List Char) : List (List Char) :=
  splitSubAux pat hay.length hay []

/-- Embeds Rust `str::split(sep)` for a single-character separator. -/
def splitChar (sep : Char) : List Char → List (List Char)
  | [] => [[]]
  | c :: rest =>
    if c = sep then [] :: splitChar sep rest
    else
      match splitChar sep rest with
      | [] => [[c]]
      | s :: ss => (c :: s) :: ss

/-! ## `parse_db_string` (src/oracle/connection/raw.rs) -/

/-- Result of `parse_db_string`: the `(user, password, db_url)` triple, the
typed `ConnectionError::InvalidConnectionUrl` return, or a Rust panic
(the `assert_eq!` on the segment count, or an out-of-bounds index into the
user/password segment). -/
inductive ParseResult
  | ok (user password db_url : List Char)
  | invalidUrl
  | panicked
  deriving DecidableEq

/-- The required scheme, `"oci://"`. -/
def schemeChars : List Char := "oci://".toList

/-- The `"//"` delimiter. -/
def dslashChars : List Char := "//".toList

/-- Embeds `parse_db_string`: scheme check, split on `"//"` into exactly
three segments (asserted), user/password split on `'/'` with the
password's final character popped, third segment passed through. -/
def parse_db_string (url : List Char) : ParseResult :=
  if (schemeChars.isPrefixOf url) = false then .invalidUrl
  else
    match splitSub dslashChars url with
    | [_, s1, s2] =>
      match splitChar '/' s1 with
      | u :: pw :: _ => .ok u pw.dropLast s2
      | _ => .panicked
    | _ => .panicked

/-! ## `Statement::check_error` (src/oracle/connection/stmt.rs) -/

/-- Errors returned by the embedded functions, mirroring the
`diesel::result::Error` values built by the source.  `databaseError`
carries the diagnostic bytes extracted from the native error buffer up to
its first terminating NUL byte (the source's conversion of those bytes to
a `String` is not modelled; only the byte content matters here).
`panickedNoNulByte` stands for the `.expect` panic taken when the buffer
holds no NUL byte. -/
inductive OciError
  | databaseError (diagnostic : List Nat)
  | invalidHandle (status : Int)
  | unsupportedType (tpe : Nat)
  | panickedNoNulByte
  deriving DecidableEq

/-- Embeds `Statement::check_error`.  `status` is the native status being
checked; `res` is the return status of the diagnostic `OCIErrorGet` call
and `errbuf` the bytes that call wrote, both read only on the `OCI_ERROR`
branch. -/
def check_error (status : Int) (res : Int) (errbuf : List Nat) : Except OciError Unit :=
  if status = OCI_ERROR then
    if res = ((OCI_NO_DATA : Nat) : Int) then Except.ok ()
    else
      match errbuf.findIdx? (fun b => b == 0) with
      | some p => Except.error (OciError.databaseError (errbuf.take p))
      | none => Except.error OciError.panickedNoNulByte
  else if status = OCI_INVALID_HANDLE then
    Except.error (OciError.invalidHandle status)
  else Except.ok ()

/-! ## The `OCIDataType` tag and `Field` (cursor.rs / types.rs) -/

/-- Modelled from the spec: the repository's `oracle::types::OCIDataType`
(its file is not among the provided sources).  The spec describes it as a
closed tagged union over the native type codes with a pure raw-code
mapping; only the codes reachable from §4.3's resolution table and the
bind path are needed here. -/
inductive OCIDataType
  | Int | UInt | Num | Float | BFloat | BDouble | Char | Str | Date | Timestamp
  deriving DecidableEq

/-- Modelled from the spec: the tag-to-native-code direction of the pure
mapping (used by `Statement::bind`). -/
def OCIDataType.to_raw : OCIDataType → Nat
  | .Int => SQLT_INT
  | .UInt => SQLT_UIN
  | .Num => SQLT_NUM
  | .Float => SQLT_FLT
  | .BFloat => SQLT_BFLOAT
  | .BDouble => SQLT_BDOUBLE
  | .Char => SQLT_CHR
  | .Str => SQLT_STR
  | .Date => SQLT_DATE
  | .Timestamp => SQLT_TIMESTAMP

/-- Modelled from the spec: the native-code-to-tag direction of the pure
mapping (used by `Statement::define`). -/
def OCIDataType.from_raw (n : Nat) : Option OCIDataType :=
  if n = SQLT_CHR then some OCIDataType.Char
  else if n = SQLT_NUM then some OCIDataType.Num
  else if n = SQLT_INT then some OCIDataType.Int
  else if n = SQLT_FLT then some OCIDataType.Float
  else if n = SQLT_STR then some OCIDataType.Str
  else if n = SQLT_BFLOAT then some OCIDataType.BFloat
  else if n = SQLT_BDOUBLE then some OCIDataType.BDouble
  else if n = SQLT_UIN then some OCIDataType.UInt
  else if n = SQLT_DATE then some OCIDataType.Date
  else if n = SQLT_TIMESTAMP then some OCIDataType.Timestamp
  else none

/-- Embeds `cursor.rs`'s `Field`: the per-column output buffer, the
null-indicator cell and the normalized type tag (the opaque native define
handle carries no observable state and is omitted). -/
structure Field where
  buffer : List Nat
  null_indicator : Int
  typ : OCIDataType
  deriving DecidableEq

/-- Embeds `Field::is_null`: true iff the stored indicator equals −1. -/
def Field.is_null (f : Field) : Bool := f.null_indicator == -1

/-- Embeds `Statement::define`: allocates a zero-filled buffer of the
resolved size, a fresh null-indicator cell initialized to −1, registers
them natively (`status`, `res`, `errbuf` are the observables of that
`OCIDefineByPos` call and its diagnostics) and appends the new `Field`,
or fails on an unrecognized type code. -/
def define (fields : List Field) (tpe : Nat) (tpe_size : Nat) (_col_number : Nat)
    (status : Int) (res : Int) (errbuf : List Nat) : Except OciError (List Field) :=
  let v : List Nat := List.replicate tpe_size 0
  let null_indicator : Int := -1
  match check_error status res errbuf with
  | Except.error e => Except.error e
  | Except.ok _ =>
    match OCIDataType.from_raw tpe with
    | some t =>
      Except.ok (fields ++ [{ buffer := v, null_indicator := null_indicator, typ := t }])
    | none => Except.error (OciError.unsupportedType tpe)

/-! ## `Statement`: prepare, run, bind (stmt.rs) -/

/-- Embeds the `Statement` struct's observable state: the monotonically
increased 32-bit bind index and the retained bind buffers, sizes and
indicators (the connection handle and native statement pointer carry no
observable state and are omitted). -/
structure Statement where
  bind_index : Nat
  is_select : Bool
  buffers : List (List Nat)
  sizes : List Int
  indicators : List Int
  deriving DecidableEq

/-- The keyword scanned for by the re-prepare quirk. -/
def createChars : List Char := "CREATE".toList

/-- The uppercase keyword of the `is_select` heuristic. -/
def selectUpperChars : List Char := "SELECT".toList

/-- The lowercase keyword of the `is_select` heuristic. -/
def selectLowerChars : List Char := "select".toList

/-- Embeds `Statement::prepare` with the native prepare calls succeeding:
returns the initial statement state together with the number of
`OCIStmtPrepare2` calls issued (a second call happens exactly when
`sql.find("CREATE")` returns an offset below 10). -/
def prepare (sql : List Char) : Statement × Nat :=
  let first_call : Nat := 1
  let calls : Nat :=
    match rustFind createChars sql with
    | some u => if u < 10 then first_call + 1 else first_call
    | none => first_call
  ({ bind_index := 0,
     is_select := containsSub selectUpperChars sql || containsSub selectLowerChars sql,
     buffers := [], sizes := [], indicators := [] }, calls)

/-- Embeds the iteration-count argument `Statement::run` passes to
`OCIStmtExecute`: 0 for a statement classified as result-producing and 1
otherwise. -/
def Statement.run (st : Statement) : Nat := if st.is_select then 0 else 1

/-- Rust's `usize as i32` cast (two's-complement truncation). -/
def as_i32 (n : Nat) : Int := ((n : Int) + 2 ^ 31) % 2 ^ 32 - 2 ^ 31

/-- Embeds `Statement::bind`: increments the 32-bit bind index before use,
copies the value (or registers an empty NULL buffer with indicator −1),
retains buffer/size/indicator, and computes the native type code passed to
`OCIBindByPos` (a 4-byte `Float` bind is narrowed to `SQLT_BFLOAT`).
Returns the new state, the positional index used, and that native code. -/
def Statement.bind (st : Statement) (tpe : OCIDataType) (value : Option (List Nat)) :
    Statement × Nat × Nat :=
  let bind_index : Nat := (st.bind_index + 1) % 2 ^ 32
  let is_null : Bool := value.isNone
  let bufsize : List Nat × Int :=
    match value with
    | some v => (v, as_i32 v.length)
    | none => ([], 0)
  let nullind : Int := if is_null then -1 else 0
  let native_tpe : Nat :=
    if bufsize.2 = 4 ∧ tpe = OCIDataType.Float then SQLT_BFLOAT else tpe.to_raw
  ({ st with
      bind_index := bind_index,
      buffers := st.buffers ++ [bufsize.1],
      sizes := st.sizes ++ [bufsize.2],
      indicators := st.indicators ++ [nullind] },
   bind_index, native_tpe)

/-- Folds a sequence of `bind` calls over a statement, collecting the
native bind positions in call order. -/
def bindMany (st : Statement) : List (OCIDataType × Option (List Nat)) → Statement × List Nat
  | [] => (st, [])
  | a :: rest =>
    let step := st.bind a.1 a.2
    let tail := bindMany step.1 rest
    (tail.1, step.2.1 :: tail.2)

/-! ## `Statement::get_attr_type_and_size` (stmt.rs) -/

/-- Embeds `Statement::get_attr_type_and_size` as the pure mapping at its
core: `tpe` is the native type code read from the column descriptor,
`precision`/`scale` the numeric attributes and `char_size` the
character-size attribute, each read only on the branch that consults it
(the surrounding `OCIAttrGet` calls are modelled as these inputs). -/
def get_attr_type_and_size (tpe : Nat) (precision : Int) (scale : Int) (char_size : Nat) :
    Except OciError (Nat × Nat) :=
  if tpe = SQLT_INT ∨ tpe = SQLT_UIN then Except.ok (tpe, 8)
  else if tpe = SQLT_NUM then
    (if scale = 0 then
      Except.ok (SQLT_INT,
        if precision = 5 then 2
        else if precision = 10 then 4
        else if precision = 19 then 8
        else 21)
    else Except.ok (SQLT_FLT, 8))
  else if tpe = SQLT_BDOUBLE ∨ tpe = SQLT_LNG ∨ tpe = SQLT_IBDOUBLE then
    Except.ok (SQLT_BDOUBLE, 8)
  else if tpe = SQLT_FLT ∨ tpe = SQLT_BFLOAT ∨ tpe = SQLT_IBFLOAT then
    Except.ok (SQLT_BFLOAT, 4)
  else if tpe = SQLT_CHR ∨ tpe = SQLT_VCS ∨ tpe = SQLT_LVC ∨ tpe = SQLT_AFC
      ∨ tpe = SQLT_VST ∨ tpe = SQLT_ODT ∨ tpe = SQLT_DATE ∨ tpe = SQLT_TIMESTAMP
      ∨ tpe = SQLT_TIMESTAMP_TZ ∨ tpe = SQLT_TIMESTAMP_LTZ then
    Except.ok (SQLT_STR, char_size)
  else Except.error (OciError.unsupportedType tpe)

/-- The char/varchar/long-varchar/date/timestamp family of §4.3's table. -/
def sqltStringFamily : List Nat :=
  [SQLT_CHR, SQLT_VCS, SQLT_LVC, SQLT_AFC, SQLT_VST, SQLT_ODT, SQLT_DATE,
   SQLT_TIMESTAMP, SQLT_TIMESTAMP_TZ, SQLT_TIMESTAMP_LTZ]

/-- Every native type code recognized by the resolution table. -/
def sqltRecognized : List Nat :=
  [SQLT_INT, SQLT_UIN, SQLT_NUM, SQLT_BDOUBLE, SQLT_LNG, SQLT_IBDOUBLE,
   SQLT_FLT, SQLT_BFLOAT, SQLT_IBFLOAT] ++ sqltStringFamily

/-! ## `Cursor` (cursor.rs) -/

/-- Errors a cursor advance can yield as an item: a translated native
error or a per-row deserialization failure of the decoding collaborator
(whose payload is not modelled). -/
inductive RowError
  | databaseError (e : OciError)
  | deserializationError
  deriving DecidableEq

/-- Embeds the `Cursor` struct: the rows the native statement has yet to
deliver (the environment of the borrowed statement handle), the owned
`Field`s, and the 32-bit fetched-row counter. -/
structure Cursor where
  pending : List (List (List Nat × Int))
  fields : List Field
  current_row : Nat
  deriving DecidableEq

/-- Rust's `i32 as u32` cast applied to a native status. -/
def statusAsU32 (s : Int) : Nat := (s % 2 ^ 32).toNat

/-- One native fetch writes each column's value bytes and indicator into
that column's define buffer. -/
def writeRow (fields : List Field) (row : List (List Nat × Int)) : List Field :=
  List.zipWith (fun f rv => { f with buffer := rv.1, null_indicator := rv.2 }) fields row

/-- Models the native `OCIStmtFetch2` call by its documented observable
behaviour: while rows remain it returns `OCI_SUCCESS` and writes the next
row into the defined output buffers; once the result set is exhausted it
returns `OCI_NO_DATA` and writes nothing, and exhaustion is absorbing. -/
def ociStmtFetch2 (fields : List Field) (pending : List (List (List Nat × Int))) :
    Int × List Field × List (List (List Nat × Int)) :=
  match pending with
  | [] => (((OCI_NO_DATA : Nat) : Int), fields, [])
  | r :: rs => (OCI_SUCCESS, writeRow fields r, rs)

/-- Embeds `Cursor::next` (the `Iterator` impl): fetches one row, routes a
native failure through `check_error` (diagnostics irrelevant for the
statuses the fetch model produces), returns no item on `OCI_NO_DATA`, and
otherwise snapshots the per-column buffers and null flags for the decoding
collaborator `decode`, counting the fetched row either way. -/
def Cursor.next {T : Type} (decode : List (List Nat) → List Bool → Option T) (c : Cursor) :
    Option (Except RowError T) × Cursor :=
  match ociStmtFetch2 c.fields c.pending with
  | (status, fields', pending') =>
    match check_error status 0 [] with
    | Except.error e =>
      (some (Except.error (RowError.databaseError e)),
       { c with fields := fields', pending := pending' })
    | Except.ok _ =>
      if statusAsU32 status = OCI_NO_DATA then
        (none, { c with fields := fields', pending := pending' })
      else
        let row := (fields'.map (fun f => f.buffer), fields'.map Field.is_null)
        let c' : Cursor :=
          { pending := pending', fields := fields',
            current_row := (c.current_row + 1) % 2 ^ 32 }
        match decode row.1 row.2 with
        | some v => (some (Except.ok v), c')
        | none => (some (Except.error RowError.deserializationError), c')

/-- Iterates `n` cursor advances, keeping only the final state. -/
def Cursor.advanceN {T : Type} (decode : List (List Nat) → List Bool → Option T) :
    Nat → Cursor → Cursor
  | 0, c => c
  | n + 1, c => Cursor.advanceN decode n (Cursor.next decode c).2

/-! ## Specification-side predicates and concrete witness inputs -/

/-- The spec's trigger for the double prepare: an occurrence of `CREATE`
begins within the first 10 bytes of the SQL text (bytes and characters
coincide for ASCII text, the case the spec describes). -/
def CreateWithin10 (sql : List Char) : Prop :=
  ∃ k, createChars.isPrefixOf (sql.drop k) = true ∧ utf8Len (sql.take k) < 10

/-- The spec's result-producing classification: the text contains the
substring `SELECT` or `select` anywhere. -/
def ContainsSelectText (sql : List Char) : Prop :=
  (∃ k, selectUpperChars.isPrefixOf (sql.drop k) = true)
  ∨ (∃ k, selectLowerChars.isPrefixOf (sql.drop k) = true)

/-- A trivial decoding collaborator for witnesses. -/
def decodeUnit : List (List Nat) → List Bool → Option Unit := fun _ _ => some ()

/-- An exhausted cursor used as a witness input. -/
def cursor0 : Cursor := { pending := [], fields := [], current_row := 0 }

/-- The field produced by a successful `define` of an 8-byte integer
column, used as a witness input. -/
def field0 : Field :=
  { buffer := List.replicate 8 0, null_indicator := -1, typ := OCIDataType.Int }

/-- A bind-argument list of length `2 ^ 32`, at which the 32-bit bind
index wraps around. -/
def bindArgsBig : List (OCIDataType × Option (List Nat)) :=
  List.replicate (2 ^ 32) (OCIDataType.Int, none)

end DieselOci

namespace DieselOci

/-! ## Claim theorems about `parse_db_string` -/

/-- C3: `parse` applied to the two documented example URLs returns the
documented `(user, password, host/service)` triples. -/
theorem parse_db_string_examples :
    parse_db_string ("oci://user/password@//localhost:1234/my_database".toList) =
      ParseResult.ok ("user".toList) ("password".toList) ("localhost:1234/my_database".toList)
    ∧ parse_db_string ("oci://user/password@//localhost/my_database".toList) =
      ParseResult.ok ("user".toList) ("password".toList) ("localhost/my_database".toList) := by
  constructor <;> decide

/-- C6: every input that does not start with the scheme `"oci://"` is
rejected with the invalid-URL connection error (the function returns
before the asserting/panicking segment logic can run). -/
theorem parse_wrong_scheme_invalid_url :
    ∀ url : List Char, schemeChars.isPrefixOf url = false →
      parse_db_string url = ParseResult.invalidUrl := by
  intro url h
  simp [parse_db_string, h]

/-- Witness for C6 at the concrete input `"http://x"`. -/
theorem parse_wrong_scheme_invalid_url_witness :
    parse_db_string ("http://x".toList) = ParseResult.invalidUrl :=
  parse_wrong_scheme_invalid_url ("http://x".toList) (by decide)

/-- C10: whenever the scheme matches, the split on `"//"` yields exactly
three segments and the middle segment splits on `'/'` into a user part and
a password part, the parse succeeds and the returned password is the
password part with its final character removed unconditionally — if the
password part is non-empty its real last character is dropped whether or
not it is the `'@'` delimiter, and an empty password part stays empty. -/
theorem parse_password_pop_last :
    ∀ (url s0 s1 s2 u pw : List Char) (rest : List (List Char)),
      schemeChars.isPrefixOf url = true →
      splitSub dslashChars url = [s0, s1, s2] →
      splitChar '/' s1 = u :: pw :: rest →
      parse_db_string url = ParseResult.ok u pw.dropLast s2
      ∧ (pw ≠ [] → ∃ c : Char, pw = pw.dropLast ++ [c])
      ∧ (pw = [] → pw.dropLast = []) := by
  intro url s0 s1 s2 u pw rest hscheme hsplit husr
  refine ⟨?_, ?_, ?_⟩
  · simp [parse_db_string, hscheme, hsplit, husr]
  · intro hne
    exact ⟨pw.getLast hne, (List.dropLast_append_getLast hne).symm⟩
  · intro he
    simp [he]

/-- Witness for C10 at `"oci://u/pwx//h"`, whose password part `"pwx"` does
not end in `'@'`: the returned password is `"pw"`, i.e. the real last
character was dropped. -/
theorem parse_password_pop_last_witness :
    parse_db_string ("oci://u/pwx//h".toList) =
      ParseResult.ok ("u".toList) (("pwx".toList).dropLast) ("h".toList)
    ∧ ("pwx".toList ≠ [] → ∃ c : Char, "pwx".toList = ("pwx".toList).dropLast ++ [c])
    ∧ ("pwx".toList = [] → ("pwx".toList).dropLast = []) :=
  parse_password_pop_last ("oci://u/pwx//h".toList) ("oci:".toList) ("u/pwx".toList) ("h".toList)
    ("u".toList) ("pwx".toList) [] (by decide) (by decide) (by decide)

/-! ## Claim theorems about `check_error` and `define` -/

/-- C9: `check_error` returns success for every status other than
`OCI_ERROR` and `OCI_INVALID_HANDLE` — in particular for the no-more-data
status (100) and the success-with-info status (1) — and even for
`OCI_ERROR` it returns success when the diagnostic `OCIErrorGet` call
itself reports `OCI_NO_DATA`. -/
theorem check_error_success_classification :
    ∀ (status res : Int) (errbuf : List Nat),
      (status ≠ OCI_ERROR → status ≠ OCI_INVALID_HANDLE →
        check_error status res errbuf = Except.ok ())
      ∧ check_error ((OCI_NO_DATA : Nat) : Int) res errbuf = Except.ok ()
      ∧ check_error OCI_SUCCESS_WITH_INFO res errbuf = Except.ok ()
      ∧ (status = OCI_ERROR → res = ((OCI_NO_DATA : Nat) : Int) →
        check_error status res errbuf = Except.ok ()) := by
  intro status res errbuf
  refine ⟨fun h1 h2 => ?_, ?_, ?_, fun h1 h2 => ?_⟩
  · simp [check_error, h1, h2]
  · simp [check_error, OCI_NO_DATA, OCI_ERROR, OCI_INVALID_HANDLE]
  · simp [check_error, OCI_SUCCESS_WITH_INFO, OCI_ERROR, OCI_INVALID_HANDLE]
  · subst h1 h2
    simp [check_error]

/-- Witness for C9 at concrete statuses: plain success, and an
`OCI_ERROR` whose diagnostic retrieval reports no data. -/
theorem check_error_success_classification_witness :
    check_error 0 0 [] = Except.ok () ∧ check_error OCI_ERROR ((OCI_NO_DATA : Nat) : Int) [] = Except.ok () :=
  ⟨(check_error_success_classification 0 0 []).1 (by decide) (by decide),
   (check_error_success_classification OCI_ERROR ((OCI_NO_DATA : Nat) : Int) []).2.2.2 rfl rfl⟩

/-- C8: whenever `define` succeeds it appends exactly one new `Field`
whose null indicator was initialized to −1, so `is_null` holds for every
field of a freshly defined result set before any fetch; and for every
`Field`, `is_null` is true exactly when the stored indicator equals −1. -/
theorem define_field_initially_null :
    ∀ (fields : List Field) (tpe tpe_size col_number : Nat) (status res : Int)
      (errbuf : List Nat) (fields' : List Field),
      define fields tpe tpe_size col_number status res errbuf = Except.ok fields' →
      (∃ f : Field, fields' = fields ++ [f] ∧ f.null_indicator = -1 ∧ f.is_null = true)
      ∧ (∀ g : Field, g.is_null = true ↔ g.null_indicator = -1) := by
  intro fields tpe tpe_size col_number status res errbuf fields' hok
  constructor
  · unfold define at hok
    rcases hce : check_error status res errbuf with e | u
    · rw [hce] at hok
      simp at hok
    · rw [hce] at hok
      rcases hfr : OCIDataType.from_raw tpe with _ | t
      · rw [hfr] at hok
        simp at hok
      · rw [hfr] at hok
        simp only [Except.ok.injEq] at hok
        refine ⟨{ buffer := List.replicate tpe_size 0, null_indicator := -1, typ := t }, ?_, rfl, rfl⟩
        exact hok.symm
  · intro g
    simp [Field.is_null]

/-- Witness for C8: defining an 8-byte integer column (`SQLT_INT`) on an
empty field list with all native calls succeeding yields exactly the
freshly-null `field0`. -/
theorem define_field_initially_null_witness :
    (∃ f : Field, [field0] = [] ++ [f] ∧ f.null_indicator = -1 ∧ f.is_null = true)
    ∧ (∀ g : Field, g.is_null = true ↔ g.null_indicator = -1) :=
  define_field_initially_null [] SQLT_INT 8 1 0 0 [] [field0] rfl

/-! ## Properties of the `str::find` embedding -/

theorem utf8Len_nil : utf8Len [] = 0 := rfl

theorem utf8Len_cons (c : Char) (l : List Char) :
    utf8Len (c :: l) = c.utf8Size + utf8Len l := by
  simp [utf8Len]

/-- If `find` reports no occurrence, no suffix starts with the pattern. -/
theorem rustFind_none_no_match {pat : List Char} :
    ∀ {hay : List Char}, rustFind pat hay = none →
      ∀ k, pat.isPrefixOf (hay.drop k) = false := by
  intro hay
  induction hay with
  | nil =>
    intro h k
    by_cases hp : pat.isPrefixOf ([] : List Char) = true
    · simp [rustFind, hp] at h
    · simpa using (Bool.not_eq_true _).mp hp
  | cons c rest ih =>
    intro h k
    by_cases hp : pat.isPrefixOf (c :: rest) = true
    · simp [rustFind, hp] at h
    · have hrest : rustFind pat rest = none := by
        simp [rustFind, hp] at h
        exact h
      match k with
      | 0 => simpa using (Bool.not_eq_true _).mp hp
      | k + 1 => simpa using ih hrest k

/-- If `find` reports byte offset `u`, some suffix at character position
`k` with byte offset `u` starts with the pattern, and `u` is minimal among
the byte offsets of all such positions. -/
theorem rustFind_some_spec {pat : List Char} :
    ∀ {hay : List Char} {u : Nat}, rustFind pat hay = some u →
      ∃ k, pat.isPrefixOf (hay.drop k) = true ∧ utf8Len (hay.take k) = u
        ∧ ∀ j, pat.isPrefixOf (hay.drop j) = true → u ≤ utf8Len (hay.take j) := by
  intro hay
  induction hay with
  | nil =>
    intro u h
    by_cases hp : pat.isPrefixOf ([] : List Char) = true
    · have hu : u = 0 := by
        simp [rustFind, hp] at h
        omega
      exact ⟨0, by simpa using hp, by simp [utf8Len_nil, hu], fun j _ => by omega⟩
    · simp [rustFind, hp] at h
  | cons c rest ih =>
    intro u h
    by_cases hp : pat.isPrefixOf (c :: rest) = true
    · have hu : u = 0 := by
        simp [rustFind, hp] at h
        omega
      exact ⟨0, by simpa using hp, by simp [utf8Len_nil, hu], fun j _ => by omega⟩
    · have h' : ∃ u', rustFind pat rest = some u' ∧ u' + c.utf8Size = u := by
        simp [rustFind, hp] at h
        exact h
      obtain ⟨u', hfind, hu⟩ := h'
      obtain ⟨k', hk', hlen, hmin⟩ := ih hfind
      refine ⟨k' + 1, by simpa using hk', ?_, ?_⟩
      · rw [List.take_succ_cons, utf8Len_cons, hlen]
        omega
      · intro j hj
        match j with
        | 0 =>
          rw [List.drop_zero] at hj
          exact absurd hj hp
        | j + 1 =>
          rw [List.drop_succ_cons] at hj
          have := hmin j hj
          rw [List.take_succ_cons, utf8Len_cons]
          omega

/-- `find` succeeds exactly when some suffix starts with the pattern. -/
theorem rustFind_isSome_iff {pat hay : List Char} :
    (rustFind pat hay).isSome = true ↔ ∃ k, pat.isPrefixOf (hay.drop k) = true := by
  constructor
  · intro h
    obtain ⟨u, hu⟩ := Option.isSome_iff_exists.mp h
    obtain ⟨k, hk, _, _⟩ := rustFind_some_spec hu
    exact ⟨k, hk⟩
  · rintro ⟨k, hk⟩
    rcases hf : rustFind pat hay with _ | u
    · exact absurd hk (by simp [rustFind_none_no_match hf k])
    · simp

/-! ## Claim theorems about `prepare` and `run` -/

/-- C2: `prepare` issues exactly two native `OCIStmtPrepare2` calls when
an occurrence of `CREATE` begins within the first 10 bytes of the SQL
text (bytes coincide with characters for ASCII text), and exactly one
call for any other text. -/
theorem prepare_native_call_count (sql : List Char) :
    ((prepare sql).2 = 2 ↔ CreateWithin10 sql)
    ∧ ((prepare sql).2 = 1 ↔ ¬ CreateWithin10 sql) := by
  have hc : (prepare sql).2 =
      (match rustFind createChars sql with
       | some u => if u < 10 then 2 else 1
       | none => 1) := rfl
  rcases hf : rustFind createChars sql with _ | u
  · have hc' : (prepare sql).2 = 1 := by rw [hc, hf]
    have hno : ¬ CreateWithin10 sql := by
      rintro ⟨k, hk, -⟩
      exact absurd hk (by simp [rustFind_none_no_match hf k])
    simp only [hc']
    exact ⟨by simp [hno], by simp [hno]⟩
  · obtain ⟨k, hk, hklen, hmin⟩ := rustFind_some_spec hf
    have hc' : (prepare sql).2 = if u < 10 then 2 else 1 := by rw [hc, hf]
    by_cases hu : u < 10
    · rw [if_pos hu] at hc'
      have hC : CreateWithin10 sql := ⟨k, hk, by rw [hklen]; exact hu⟩
      simp only [hc']
      exact ⟨by simp [hC], by simp [hC]⟩
    · rw [if_neg hu] at hc'
      have hnC : ¬ CreateWithin10 sql := by
        rintro ⟨j, hj, hjlt⟩
        have := hmin j hj
        omega
      simp only [hc']
      exact ⟨by simp [hnC], by simp [hnC]⟩

/-- Witness for C2: a DDL text starting with `CREATE` is prepared twice. -/
theorem prepare_native_call_count_witness :
    (prepare ("CREATE TABLE t".toList)).2 = 2 :=
  (prepare_native_call_count ("CREATE TABLE t".toList)).1.mpr
    ⟨0, by decide, by decide⟩

/-- C4: `run` passes iteration count 0 to the native execute exactly when
the statement was classified as result-producing — the SQL text contains
the substring `SELECT` or `select` anywhere — and 1 otherwise. -/
theorem run_iteration_count_select (sql : List Char) :
    (Statement.run (prepare sql).1 = 0 ↔ ContainsSelectText sql)
    ∧ (Statement.run (prepare sql).1 = 1 ↔ ¬ ContainsSelectText sql) := by
  have hiff : ((prepare sql).1.is_select = true) ↔ ContainsSelectText sql := by
    have hsel : (prepare sql).1.is_select
        = (containsSub selectUpperChars sql || containsSub selectLowerChars sql) := rfl
    rw [hsel]
    simp only [Bool.or_eq_true, containsSub, ContainsSelectText, rustFind_isSome_iff]
  rcases hsb : (prepare sql).1.is_select with _ | _
  · have hnC : ¬ ContainsSelectText sql := by
      rw [← hiff, hsb]
      simp
    simp [Statement.run, hsb, hnC]
  · have hC : ContainsSelectText sql := hiff.mp hsb
    simp [Statement.run, hsb, hC]

/-- Witness for C4: a text containing `SELECT` runs with 0 iterations. -/
theorem run_iteration_count_select_witness :
    Statement.run (prepare ("SELECT 1".toList)).1 = 0 :=
  (run_iteration_count_select ("SELECT 1".toList)).1.mpr
    (Or.inl ⟨0, by decide⟩)

/-! ## Claim theorems about `bind` positions -/

/-- The j-th of a sequence of bind calls uses native position
`(bind_index + 1 + j) mod 2^32`: the 32-bit index is incremented before
use on every call. -/
theorem bindMany_positions :
    ∀ (args : List (OCIDataType × Option (List Nat))) (st : Statement),
      (bindMany st args).2
        = (List.range args.length).map (fun j => (st.bind_index + 1 + j) % 2 ^ 32) := by
  intro args
  induction args with
  | nil => intro st; rfl
  | cons a rest ih =>
    intro st
    have h1 : (bindMany st (a :: rest)).2
        = ((st.bind_index + 1) % 2 ^ 32) :: (bindMany (st.bind a.1 a.2).1 rest).2 := rfl
    have h2 : (st.bind a.1 a.2).1.bind_index = (st.bind_index + 1) % 2 ^ 32 := rfl
    have htail : (List.range rest.length).map
          (fun j => ((st.bind_index + 1) % 2 ^ 32 + 1 + j) % 2 ^ 32)
        = (List.range rest.length).map
          ((fun j => (st.bind_index + 1 + j) % 2 ^ 32) ∘ Nat.succ) := by
      apply List.map_congr_left
      intro j _
      simp only [Function.comp_apply, Nat.succ_eq_add_one]
      rw [Nat.add_assoc, Nat.mod_add_mod]
      omega
    rw [h1, ih, h2, List.length_cons, List.range_succ_eq_map, List.map_cons, List.map_map,
      htail]

/-- C5 (amended): for every statement and every `N < 2 ^ 32`, the native
bind positions produced by `N` successive `bind` calls are exactly
`1, 2, ..., N` in call order. -/
theorem bind_positions_one_to_n :
    ∀ (sql : List Char) (args : List (OCIDataType × Option (List Nat))),
      args.length < 2 ^ 32 →
      (bindMany (prepare sql).1 args).2 = List.range' 1 args.length := by
  intro sql args hlen
  rw [bindMany_positions, List.range'_eq_map_range]
  have hb : (prepare sql).1.bind_index = 0 := rfl
  rw [hb]
  apply List.map_congr_left
  intro j hj
  have hjn : j < args.length := List.mem_range.mp hj
  omega

/-- Witness for C5's amended claim: three binds use positions 1, 2, 3. -/
theorem bind_positions_one_to_n_witness :
    (bindMany (prepare ("INSERT".toList)).1
        [(OCIDataType.Int, some [1]), (OCIDataType.Float, none), (OCIDataType.Char, some [2, 3])]).2
      = List.range' 1 3 :=
  bind_positions_one_to_n ("INSERT".toList)
    [(OCIDataType.Int, some [1]), (OCIDataType.Float, none), (OCIDataType.Char, some [2, 3])]
    (by norm_num)

/-- Counterexample to C5 as stated: at `N = 2 ^ 32` the 32-bit bind index
wraps (the c_uint increment is modular), so the produced position sequence
is not `1, ..., N` — its last position is 0. -/
theorem bind_positions_wrap_at_two_pow_32 :
    bindArgsBig.length = 2 ^ 32
    ∧ ¬ ((bindMany (prepare ([] : List Char)).1 bindArgsBig).2
          = List.range' 1 bindArgsBig.length) := by
  have hlen : bindArgsBig.length = 2 ^ 32 := by
    simp only [bindArgsBig, List.length_replicate]
  refine ⟨hlen, ?_⟩
  intro h
  have h0 : (0 : Nat) ∈ (bindMany (prepare ([] : List Char)).1 bindArgsBig).2 := by
    rw [bindMany_positions]
    refine List.mem_map.mpr ⟨2 ^ 32 - 1, List.mem_range.mpr ?_, ?_⟩
    · rw [hlen]
      omega
    · show ((prepare ([] : List Char)).1.bind_index + 1 + (2 ^ 32 - 1)) % 2 ^ 32 = 0
      have hb : (prepare ([] : List Char)).1.bind_index = 0 := rfl
      rw [hb]
      omega
  rw [h] at h0
  have h1 := List.mem_range'_1.mp h0
  omega

/-! ## Claim theorem about the type/size resolution table -/

/-- C1: `get_attr_type_and_size` is a pure function of the native type
code, precision and scale (plus the character-size attribute) matching
§4.3's table exactly: signed/unsigned integer resolves to width 8;
numeric/decimal with scale 0 resolves to an integer of width 2/4/8 for
precision 5/10/19 and 21 otherwise; numeric/decimal with nonzero scale to
an 8-byte float; the double family (including the long code grouped with
it by the source) to an 8-byte double; the single-float family to a 4-byte
float; the char/varchar/long-varchar/date/timestamp family to an opaque
string whose width is the character-size attribute; and every code outside
the table to the unsupported-type error. -/
theorem get_attr_type_and_size_matches_table :
    ∀ (p s : Int) (cs : Nat),
      get_attr_type_and_size SQLT_INT p s cs = Except.ok (SQLT_INT, 8)
      ∧ get_attr_type_and_size SQLT_UIN p s cs = Except.ok (SQLT_UIN, 8)
      ∧ (s = 0 → p = 5 → get_attr_type_and_size SQLT_NUM p s cs = Except.ok (SQLT_INT, 2))
      ∧ (s = 0 → p = 10 → get_attr_type_and_size SQLT_NUM p s cs = Except.ok (SQLT_INT, 4))
      ∧ (s = 0 → p = 19 → get_attr_type_and_size SQLT_NUM p s cs = Except.ok (SQLT_INT, 8))
      ∧ (s = 0 → p ≠ 5 → p ≠ 10 → p ≠ 19 →
          get_attr_type_and_size SQLT_NUM p s cs = Except.ok (SQLT_INT, 21))
      ∧ (s ≠ 0 → get_attr_type_and_size SQLT_NUM p s cs = Except.ok (SQLT_FLT, 8))
      ∧ get_attr_type_and_size SQLT_BDOUBLE p s cs = Except.ok (SQLT_BDOUBLE, 8)
      ∧ get_attr_type_and_size SQLT_LNG p s cs = Except.ok (SQLT_BDOUBLE, 8)
      ∧ get_attr_type_and_size SQLT_IBDOUBLE p s cs = Except.ok (SQLT_BDOUBLE, 8)
      ∧ get_attr_type_and_size SQLT_FLT p s cs = Except.ok (SQLT_BFLOAT, 4)
      ∧ get_attr_type_and_size SQLT_BFLOAT p s cs = Except.ok (SQLT_BFLOAT, 4)
      ∧ get_attr_type_and_size SQLT_IBFLOAT p s cs = Except.ok (SQLT_BFLOAT, 4)
      ∧ (∀ t ∈ sqltStringFamily, get_attr_type_and_size t p s cs = Except.ok (SQLT_STR, cs))
      ∧ (∀ t : Nat, t ∉ sqltRecognized →
          get_attr_type_and_size t p s cs = Except.error (OciError.unsupportedType t)) := by
  intro p s cs
  refine ⟨rfl, rfl, ?_, ?_, ?_, ?_, ?_, rfl, rfl, rfl, rfl, rfl, rfl, ?_, ?_⟩
  · rintro rfl rfl; rfl
  · rintro rfl rfl; rfl
  · rintro rfl rfl; rfl
  · rintro rfl h5 h10 h19
    simp [get_attr_type_and_size, SQLT_NUM, SQLT_INT, SQLT_UIN, h5, h10, h19]
  · intro hs
    simp [get_attr_type_and_size, SQLT_NUM, SQLT_INT, SQLT_UIN, hs]
  · intro t ht
    simp only [sqltStringFamily, List.mem_cons, List.not_mem_nil, or_false] at ht
    rcases ht with rfl | rfl | rfl | rfl | rfl | rfl | rfl | rfl | rfl | rfl <;> rfl
  · intro t ht
    simp only [sqltRecognized, sqltStringFamily, List.mem_append, List.mem_cons,
      List.not_mem_nil, or_false, not_or] at ht
    obtain ⟨⟨hA, hB, hC, hD, hE, hF, hG, hH, hI⟩,
      hJ, hK, hL, hM, hN, hO, hP, hQ, hR, hS⟩ := ht
    simp [get_attr_type_and_size, hA, hB, hC, hD, hE, hF, hG, hH, hI,
      hJ, hK, hL, hM, hN, hO, hP, hQ, hR, hS]

/-- Witness for C1: concrete rows of the table — `number(10,0)` is a
4-byte integer, `number(38,0)` a 21-byte integer, `number(10,2)` an 8-byte
float, a char column takes the character-size attribute as its width, and
code 999 is unsupported. -/
theorem get_attr_type_and_size_matches_table_witness :
    get_attr_type_and_size SQLT_NUM 10 0 7 = Except.ok (SQLT_INT, 4)
    ∧ get_attr_type_and_size SQLT_NUM 38 0 7 = Except.ok (SQLT_INT, 21)
    ∧ get_attr_type_and_size SQLT_NUM 10 2 7 = Except.ok (SQLT_FLT, 8)
    ∧ get_attr_type_and_size SQLT_CHR 10 0 7 = Except.ok (SQLT_STR, 7)
    ∧ get_attr_type_and_size 999 10 0 7 = Except.error (OciError.unsupportedType 999) := by
  obtain ⟨-, -, -, h10, -, -, -, -, -, -, -, -, -, -, -⟩ :=
    get_attr_type_and_size_matches_table 10 0 7
  obtain ⟨-, -, -, -, -, h38, -, -, -, -, -, -, -, -, -⟩ :=
    get_attr_type_and_size_matches_table 38 0 7
  obtain ⟨-, -, -, -, -, -, hflt, -, -, -, -, -, -, -, -⟩ :=
    get_attr_type_and_size_matches_table 10 2 7
  obtain ⟨-, -, -, -, -, -, -, -, -, -, -, -, -, hstr, huns⟩ :=
    get_attr_type_and_size_matches_table 10 0 7
  refine ⟨h10 rfl rfl, h38 rfl (by decide) (by decide) (by decide), hflt (by decide),
    hstr SQLT_CHR (by decide), huns 999 (by decide)⟩

/-! ## Claim theorem about cursor exhaustion -/

/-- C7: once a cursor advance observes the no-more-data status the
advance yields no item and leaves the cursor unchanged, so every
subsequent advance also yields no item — exhaustion is idempotent and the
cursor never yields another row. -/
theorem cursor_exhausted_never_yields :
    ∀ {T : Type} (decode : List (List Nat) → List Bool → Option T) (c : Cursor),
      (Cursor.next decode c).1 = none →
      ∀ n : Nat, (Cursor.next decode (Cursor.advanceN decode n c)).1 = none := by
  intro T decode c h n
  have hnil : c.pending = [] := by
    rcases hp : c.pending with _ | ⟨r, rs⟩
    · rfl
    · exfalso
      unfold Cursor.next at h
      rw [hp] at h
      simp only [ociStmtFetch2] at h
      have hce : check_error OCI_SUCCESS 0 [] = Except.ok () := rfl
      rw [hce] at h
      have hst : statusAsU32 OCI_SUCCESS = 0 := rfl
      simp only [hst, OCI_NO_DATA] at h
      rcases hd : decode ((writeRow c.fields r).map fun f => f.buffer)
          ((writeRow c.fields r).map Field.is_null) with _ | v <;>
        simp [hd] at h
  have hfix : Cursor.next decode c = (none, c) := by
    unfold Cursor.next
    rw [hnil]
    simp only [ociStmtFetch2]
    have hce : check_error ((OCI_NO_DATA : Nat) : Int) 0 [] = Except.ok () := rfl
    rw [hce]
    have hst : statusAsU32 ((OCI_NO_DATA : Nat) : Int) = OCI_NO_DATA := rfl
    rw [hst, if_pos rfl, ← hnil]
  have hadv : Cursor.advanceN decode n c = c := by
    induction n with
    | zero => rfl
    | succ m ih =>
      show Cursor.advanceN decode m (Cursor.next decode c).2 = c
      rw [hfix]
      exact ih
  rw [hadv, hfix]

/-- Witness for C7: an exhausted cursor keeps yielding nothing after
three further advances. -/
theorem cursor_exhausted_never_yields_witness :
    (Cursor.next decodeUnit (Cursor.advanceN decodeUnit 3 cursor0)).1 = none :=
  cursor_exhausted_never_yields decodeUnit cursor0 rfl 3

end DieselOci
